import Mathlib

/-!
Verification of the mbeat multicast heartbeat utilities (publisher `mpub`,
subscriber `msub`) against their natural-language specification.

The development shallowly embeds the C sources: machine integers are `Nat`
with explicit `% 2 ^ w` where the C performs a narrowing conversion, byte
buffers are `List Nat`, and the event-driven receive loop is a fold over an
explicit list of receive results.  A field of C type `uintN_t` is modelled as
a `Nat` carrying the range invariant `< 256 ^ (N / 8)` (equal to `2 ^ N`).

The repository snapshot mixes several revisions: `pub.c`/`parse.c`/`common.h`
are the latest (protocol version 2, whose payload layout is the one the spec
documents), while `sub.c` is an earlier subscriber revision and `types.h` an
even earlier header.  Definitions below are grouped in namespace `Pub` for
the publisher sources and namespace `Sub` for the subscriber revision that
`sub.c` implements; where a definition had to be modelled from the spec
because its header is absent from the sources, its doc comment says so.
-/

/-- Serialise `x` to exactly `w` bytes, most significant byte first
(big-endian, the network byte order produced by `htons`/`htonl`/`htonll`
on the little-endian hosts the tool targets). Only `x % 256 ^ w` is
represented. -/
def toBytesBE : Nat → Nat → List Nat
  | 0, _ => []
  | w + 1, x => toBytesBE w (x / 256) ++ [x % 256]

/-- Read a big-endian byte list back into a number. -/
def fromBytesBE (bs : List Nat) : Nat :=
  bs.foldl (fun a b => a * 256 + b) 0

/-- Serialise `x` to exactly `w` bytes, least significant byte first (the
in-memory order of an integer field on the little-endian hosts the tool
targets). -/
def toBytesLE (w x : Nat) : List Nat :=
  (toBytesBE w x).reverse

/-- Byte-swap of a `w`-byte value: the effect of `ntohs`/`ntohl`/`ntohll`
(and of their `hton` counterparts) on a little-endian host. -/
def bswap (w x : Nat) : Nat :=
  fromBytesBE ((toBytesBE w x).reverse)

/-- Consume `w` bytes from the front of a buffer as one big-endian field,
returning the field value and the remaining bytes. -/
def readBE (w : Nat) (bs : List Nat) : Nat × List Nat :=
  (fromBytesBE (bs.take w), bs.drop w)

/-- Consume `w` bytes from the front of a buffer verbatim (a string field),
returning the bytes and the remainder. -/
def readChunk (w : Nat) (bs : List Nat) : List Nat × List Nat :=
  (bs.take w, bs.drop w)

/-- Protocol magic identifier, `MBEAT_PAYLOAD_MAGIC` of common.h. -/
def MBEAT_PAYLOAD_MAGIC : Nat := 0x6d626974

/-- Supported payload format version, `MBEAT_PAYLOAD_VERSION` of common.h. -/
def MBEAT_PAYLOAD_VERSION : Nat := 2

/-- Default UDP port, `MBEAT_PORT` of common.h. -/
def MBEAT_PORT : Nat := 22999

namespace Pub

/-- The version-2 payload written by `fill_payload` of pub.c.  Field values
are in host order; the wire image is produced by `encode_bytes`.  Modelled
from the spec: the `types.h` revision that pub.c compiles against is absent
from the sources (the `types.h` present is an older protocol revision), so
the field widths and their order follow the spec's wire-payload layout,
which matches every assignment `fill_payload` makes: magic (4 bytes),
version (1), source TTL (1), port (2), multicast address (4), padding (4),
wall-clock departure (8), monotonic departure (8), key (8), sequence
number (8), sequence length (8), interface name (16), hostname (64);
136 bytes in total. -/
structure payload where
  pl_magic : Nat
  pl_fver : Nat
  pl_ttl : Nat
  pl_mport : Nat
  pl_maddr : Nat
  pl_pad : List Nat
  pl_rsec : Nat
  pl_msec : Nat
  pl_key : Nat
  pl_snum : Nat
  pl_slen : Nat
  pl_iname : List Nat
  pl_hname : List Nat
deriving DecidableEq

/-- Range invariants of a well-formed `payload`: each numeric field fits its
C integer type and each string field has its fixed width.  (`256 ^ w` is
`2 ^ (8 * w)`, the exclusive bound of a `w`-byte unsigned integer.) -/
def payload_inrange (p : payload) : Prop :=
  p.pl_magic < 256 ^ 4 ∧ p.pl_fver < 256 ^ 1 ∧ p.pl_ttl < 256 ^ 1 ∧
  p.pl_mport < 256 ^ 2 ∧ p.pl_maddr < 256 ^ 4 ∧ p.pl_pad.length = 4 ∧
  p.pl_rsec < 256 ^ 8 ∧ p.pl_msec < 256 ^ 8 ∧ p.pl_key < 256 ^ 8 ∧
  p.pl_snum < 256 ^ 8 ∧ p.pl_slen < 256 ^ 8 ∧
  p.pl_iname.length = 16 ∧ p.pl_hname.length = 64

instance (p : payload) : Decidable (payload_inrange p) := by
  unfold payload_inrange; infer_instance

/-- Command-line options of pub.c (the file-scope `op_*` variables). -/
structure pub_options where
  op_buf : Nat
  op_cnt : Nat
  op_slp : Nat
  op_ttl : Nat
  op_off : Nat
  op_key : Nat
  op_port : Nat
  op_err : Nat
deriving DecidableEq

/-- One publishing endpoint as pub.c uses it: the multicast group address
(`ep_maddr.s_addr`, a 32-bit value) and the fixed-width local interface
name.  The socket and the intrusive `ep_next` link of the C struct are
realised by keeping endpoints in a Lean list. -/
structure endpoint where
  ep_maddr : Nat
  ep_iname : List Nat
deriving DecidableEq

/-- `fill_payload` of pub.c (lines 329-362): stamps the magic constant, the
supported version, TTL, port, multicast address, key, sequence number,
sequence length, the interface name, the cached hostname and the two
departure clock samples.  The clock samples and the `snum` argument (already
narrowed to `uint32_t` by the caller's conversion) are parameters; `% 256`
and `% 2 ^ 16` mirror the C narrowing of `op_ttl` to `uint8_t` and of
`op_port` through `htons`'s `uint16_t` argument.  The `memset` of the C
code zeroes the padding. -/
def fill_payload (cfg : pub_options) (ep : endpoint) (snum : Nat)
    (hname : List Nat) (rsec msec : Nat) : payload :=
  { pl_magic := MBEAT_PAYLOAD_MAGIC
    pl_fver := MBEAT_PAYLOAD_VERSION
    pl_ttl := cfg.op_ttl % 256
    pl_mport := cfg.op_port % 2 ^ 16
    pl_maddr := ep.ep_maddr
    pl_pad := [0, 0, 0, 0]
    pl_rsec := rsec
    pl_msec := msec
    pl_key := cfg.op_key
    pl_snum := snum
    pl_slen := cfg.op_cnt
    pl_iname := ep.ep_iname
    pl_hname := hname }

/-- `generate_key` of pub.c (lines 93-113): draws pairs from `lrand48` and
combines them as `lo | (hi << 32)`, looping until the combination is
non-zero.  The pseudo-random stream is modelled as the list of drawn pairs;
an all-zero stream, on which the C loop would never return, yields `none`. -/
def generate_key : List (Nat × Nat) → Option Nat
  | [] => none
  | (lo, hi) :: rest =>
    let key := lo ||| (hi <<< 32)
    if key = 0 then generate_key rest else some key

/-- The inner endpoint loop of `publish_datagrams` of pub.c (lines 400-432)
for one round `r`: for each endpoint (paired with its position `i`), fill a
payload whose sequence number is `(r + op_off)` narrowed to `uint32_t`, and
send it.  `send r i` is the `sendmsg` return value, `clockR`/`clockM` the
clock samples taken inside `fill_payload`.  Returns the status (false on
abort), the number of send failures the code notices and logs (pub.c tests
`ret == 0`, line 424), and the payloads handed to `sendmsg`. -/
def publish_round (cfg : pub_options) (hname : List Nat)
    (clockR clockM : Nat → Nat → Nat) (send : Nat → Nat → Int) (r : Nat) :
    List (Nat × endpoint) → Bool × Nat × List payload
  | [] => (true, 0, [])
  | (i, ep) :: rest =>
    let pl := fill_payload cfg ep ((r + cfg.op_off) % 2 ^ 32) hname
      (clockR r i) (clockM r i)
    let ret := send r i
    if ret = 0 then
      if cfg.op_err = 1 then (false, 1, [pl])
      else
        let rec' := publish_round cfg hname clockR clockM send r rest
        (rec'.1, rec'.2.1 + 1, pl :: rec'.2.2)
    else
      let rec' := publish_round cfg hname clockR clockM send r rest
      (rec'.1, rec'.2.1, pl :: rec'.2.2)

/-- The outer round loop of `publish_datagrams` of pub.c (lines 396-439),
over the list of round indices; aborting a round cuts all later rounds. -/
def publish_loop (cfg : pub_options) (eps : List endpoint) (hname : List Nat)
    (clockR clockM : Nat → Nat → Nat) (send : Nat → Nat → Int) :
    List Nat → Bool × Nat × List payload
  | [] => (true, 0, [])
  | r :: rs =>
    let h := publish_round cfg hname clockR clockM send r eps.enum
    if h.1 then
      let t := publish_loop cfg eps hname clockR clockM send rs
      (t.1, h.2.1 + t.2.1, h.2.2 ++ t.2.2)
    else (false, h.2.1, h.2.2)

/-- `publish_datagrams` of pub.c (lines 368-443): `op_cnt` rounds, each over
every endpoint in list order. -/
def publish_datagrams (cfg : pub_options) (eps : List endpoint)
    (hname : List Nat) (clockR clockM : Nat → Nat → Nat)
    (send : Nat → Nat → Int) : Bool × Nat × List payload :=
  publish_loop cfg eps hname clockR clockM send (List.range cfg.op_cnt)

end Pub

/-- The wire image of a version-2 payload: the bytes `sendmsg` transmits
(pub.c line 423, `iov_base = &pl`).  Each numeric field was stored through
`hton*`, so its memory bytes are its value big-endian; string fields and the
padding are verbatim.  The spec's §8 calls this `encode_bytes`. -/
def encode_bytes (p : Pub.payload) : List Nat :=
  toBytesBE 4 p.pl_magic ++ toBytesBE 1 p.pl_fver ++ toBytesBE 1 p.pl_ttl ++
  toBytesBE 2 p.pl_mport ++ toBytesBE 4 p.pl_maddr ++ p.pl_pad ++
  toBytesBE 8 p.pl_rsec ++ toBytesBE 8 p.pl_msec ++ toBytesBE 8 p.pl_key ++
  toBytesBE 8 p.pl_snum ++ toBytesBE 8 p.pl_slen ++ p.pl_iname ++ p.pl_hname

/-- Modelled from the spec: the subscriber-side decoding of a version-2
wire payload.  The subscriber revision matching pub.c's protocol version is
absent from the sources (the `sub.c` present is an earlier revision with a
different payload layout); per the spec, decode byte-order-swaps every
multi-byte numeric field from wire to host order and copies string fields
verbatim, exactly the per-field `ntoh*` pattern of `convert_payload`. -/
def decode (bs : List Nat) : Pub.payload :=
  let r1 := readBE 4 bs
  let r2 := readBE 1 r1.2
  let r3 := readBE 1 r2.2
  let r4 := readBE 2 r3.2
  let r5 := readBE 4 r4.2
  let r6 := readChunk 4 r5.2
  let r7 := readBE 8 r6.2
  let r8 := readBE 8 r7.2
  let r9 := readBE 8 r8.2
  let r10 := readBE 8 r9.2
  let r11 := readBE 8 r10.2
  let r12 := readChunk 16 r11.2
  let r13 := readChunk 64 r12.2
  { pl_magic := r1.1
    pl_fver := r2.1
    pl_ttl := r3.1
    pl_mport := r4.1
    pl_maddr := r5.1
    pl_pad := r6.1
    pl_rsec := r7.1
    pl_msec := r8.1
    pl_key := r9.1
    pl_snum := r10.1
    pl_slen := r11.1
    pl_iname := r12.1
    pl_hname := r13.1 }

namespace Sub

/-- The payload of the subscriber revision implemented by sub.c.  The
matching `types.h` revision is absent from the sources (the `types.h`
present is older and lacks `pl_magic`, `pl_ttl` and `pl_slen`); the field
set is exactly the set sub.c reads, with the widths its conversions imply:
`ntohl` for `pl_magic`, `pl_maddr` and `pl_nsec` (4 bytes), `ntohs` for
`pl_mport` (2), `ntohll` for `pl_sid`, `pl_snum`, `pl_slen` and `pl_sec`
(8), one byte for `pl_ttl` (printed with `PRIu8`) and for `pl_fver`, and
the 16/64-byte string fields of `types.h`. -/
structure payload where
  pl_magic : Nat
  pl_fver : Nat
  pl_ttl : Nat
  pl_mport : Nat
  pl_maddr : Nat
  pl_sid : Nat
  pl_snum : Nat
  pl_slen : Nat
  pl_iname : List Nat
  pl_hname : List Nat
  pl_sec : Nat
  pl_nsec : Nat
deriving DecidableEq

/-- `sizeof(payload)` for the sub.c revision: 4+1+1+2+4+8+8+8+16+64+8+4.
The exact constant plays no role in any proof other than being the single
fixed size the length check compares against. -/
def payload_sizeof : Nat := 128

/-- Command-line options of msub, the `sub_options` struct as sub.c uses it
(the `types.h` present lacks the `so_port` and `so_err` fields sub.c
reads; they are included here as sub.c's `parse_args` sets them). -/
structure sub_options where
  so_tout : Nat
  so_buf : Nat
  so_sid : Nat
  so_off : Nat
  so_port : Nat
  so_err : Nat
  so_raw : Nat
  so_unb : Nat
deriving DecidableEq

/-- `convert_payload` of sub.c (lines 522-533): byte-order-swap of every
multi-byte numeric field from network to host order, one `bswap` per
`ntoh*` call of the source; `pl_fver`, `pl_ttl` and the string fields are
not touched. -/
def convert_payload (pl : payload) : payload :=
  { pl with
    pl_magic := bswap 4 pl.pl_magic
    pl_mport := bswap 2 pl.pl_mport
    pl_maddr := bswap 4 pl.pl_maddr
    pl_sid := bswap 8 pl.pl_sid
    pl_snum := bswap 8 pl.pl_snum
    pl_slen := bswap 8 pl.pl_slen
    pl_sec := bswap 8 pl.pl_sec
    pl_nsec := bswap 4 pl.pl_nsec }

/-- Outcome of the three per-datagram validation checks of `handle_event`. -/
inductive CheckResult where
  | sizeReject
  | magicReject
  | versionReject
  | accept (pl : payload)
deriving DecidableEq

/-- The validation sequence of `handle_event` of sub.c (lines 614-637):
first the length check against `sizeof(pl)` (line 615), then — only on a
correctly sized buffer — `convert_payload` followed by the magic check
(line 625) and the version check (line 632); a payload passing all three is
handed to `print_payload`.  `nbytes` is the observed datagram size
(`recvmsg` with `MSG_TRUNC`), `buf` the received buffer in wire order. -/
def validate_datagram (nbytes : Nat) (buf : payload) : CheckResult :=
  if nbytes ≠ payload_sizeof then CheckResult.sizeReject
  else
    let pl := convert_payload buf
    if pl.pl_magic ≠ MBEAT_PAYLOAD_MAGIC then CheckResult.magicReject
    else if pl.pl_fver ≠ MBEAT_PAYLOAD_VERSION then CheckResult.versionReject
    else CheckResult.accept pl

/-- True when `validate_datagram` rejects (any of the three checks fails). -/
def validation_rejects (nbytes : Nat) (buf : payload) : Bool :=
  match validate_datagram nbytes buf with
  | CheckResult.accept _ => false
  | _ => true

/-- `print_payload` of sub.c (lines 490-517), up to the choice of output
format: drop the payload when a non-zero session-ID filter mismatches
(lines 499-501), drop it when its sequence number is below the configured
offset (lines 503-505), otherwise subtract the offset from the sequence
number (line 508) and render it.  Returns the rendered payload, or `none`
when the datagram is filtered out. -/
def print_payload (opts : sub_options) (pl : payload) : Option payload :=
  if opts.so_sid ≠ 0 ∧ opts.so_sid ≠ pl.pl_sid then none
  else if opts.so_off > pl.pl_snum then none
  else some { pl with pl_snum := pl.pl_snum - opts.so_off }

/-- One result of the non-blocking `recvmsg` of `handle_event`: either a
receive-syscall failure with `errno != EAGAIN` (the `EAGAIN` case simply
ends the drain loop and is modelled by the end of the input list), or a
datagram of `nbytes` bytes. -/
inductive RecvInput where
  | rerror
  | dgram (nbytes : Nat) (buf : payload)
deriving DecidableEq

/-- The drain loop of `handle_event` of sub.c (lines 571-642) over the
queued receive results of one ready socket: a receive failure is fatal
exactly when `so_err == 1` (lines 608-612; with `so_err == 0` the C code
falls through to the length check with `nbytes == -1`, logs a size mismatch
and continues); a datagram failing validation is skipped; an accepted one
is filtered and rendered by `print_payload`.  Returns the status
(`false` = abort, making `main` exit non-zero) and the rendered payloads in
order. -/
def handle_event (opts : sub_options) : List RecvInput → Bool × List payload
  | [] => (true, [])
  | RecvInput.rerror :: rest =>
    if opts.so_err = 1 then (false, [])
    else handle_event opts rest
  | RecvInput.dgram n buf :: rest =>
    match validate_datagram n buf with
    | CheckResult.accept pl =>
      let t := handle_event opts rest
      (t.1, (print_payload opts pl).toList ++ t.2)
    | _ => handle_event opts rest

/-- The in-memory image of a sub.c-revision payload, in struct field order,
each integer field in host order (little-endian on the targeted hosts):
what `fwrite(&ro, ...)` emits for the embedded `ro_pl`. -/
def payload_bytes (pl : payload) : List Nat :=
  toBytesLE 4 pl.pl_magic ++ toBytesLE 1 pl.pl_fver ++
  toBytesLE 1 pl.pl_ttl ++ toBytesLE 2 pl.pl_mport ++
  toBytesLE 4 pl.pl_maddr ++ toBytesLE 8 pl.pl_sid ++
  toBytesLE 8 pl.pl_snum ++ toBytesLE 8 pl.pl_slen ++
  pl.pl_iname ++ pl.pl_hname ++
  toBytesLE 8 pl.pl_sec ++ toBytesLE 4 pl.pl_nsec

/-- `print_payload_raw` of sub.c (lines 462-481): the raw output record,
`raw_output` of types.h extended by the `ro_ttla`/`ro_ttl`/`ro_pad` tail
fields sub.c assigns (absent from the in-src `types.h` revision; widths one
byte, one byte and two bytes per the spec's record description).  The
record is the rendered payload, the subscriber's interface name (16 bytes),
the subscriber's hostname (64 bytes), the arrival time of the single
`CLOCK_REALTIME` sample as 8 bytes of seconds (`ro_sec`) and 4 bytes of
nanoseconds (`ro_nsec`), the TTL-availability flag `(0 <= ttl && ttl <=
255)`, the observed TTL narrowed to `uint8_t`, and 2 zeroed padding
bytes. -/
def print_payload_raw (pl : payload) (ep_iname : List Nat)
    (hname : List Nat) (tv_sec tv_nsec : Nat) (ttl : Int) : List Nat :=
  payload_bytes pl ++ ep_iname ++ hname ++
  toBytesLE 8 tv_sec ++ toBytesLE 4 tv_nsec ++
  [if 0 ≤ ttl ∧ ttl ≤ 255 then 1 else 0] ++
  [(ttl % 256).toNat] ++ [0, 0]

/-- The raw-record size the spec's record description implies: the payload
followed by 16 + 64 bytes of names, an 8-byte wall-clock arrival, an 8-byte
monotonic arrival, two single-byte TTL fields and 2 bytes of padding.
Stated from the spec's words, for comparison with `print_payload_raw`. -/
def claimed_raw_record_size : Nat :=
  payload_sizeof + 16 + 64 + 8 + 8 + 1 + 1 + 2

end Sub

/-- The endpoint-collection loop of `parse_endpoints` of parse.c (lines
238-256): walk the endpoint arguments left to right, parse each one
(`parse_endpoint`, which consults the OS interface list, is the `parseOne`
parameter), stop with a failure status on the first argument that does not
parse, and push each parsed endpoint onto the HEAD of the accumulated list
(`new->ep_next = *eps; *eps = new;`, lines 254-255). -/
def parse_endpoints_loop {α ε : Type} (parseOne : α → Option ε) :
    List α → List ε → List ε × Bool
  | [], eps => (eps, true)
  | a :: rest, eps =>
    match parseOne a with
    | none => (eps, false)
    | some e => parse_endpoints_loop parseOne rest (e :: eps)

/-- `parse_endpoints` of parse.c as called from pub.c's `main` with an
initially empty list (`eps = NULL`). -/
def parse_endpoints {α ε : Type} (parseOne : α → Option ε)
    (args : List α) : List ε × Bool :=
  parse_endpoints_loop parseOne args []

/-! ## Byte-serialisation lemmas -/

theorem toBytesBE_length (w x : Nat) : (toBytesBE w x).length = w := by
  induction w generalizing x with
  | zero => rfl
  | succ w ih => simp [toBytesBE, ih]

theorem fromBytesBE_toBytesBE (w x : Nat) (h : x < 256 ^ w) :
    fromBytesBE (toBytesBE w x) = x := by
  induction w generalizing x with
  | zero =>
    simp only [pow_zero, Nat.lt_one_iff] at h
    simp [toBytesBE, fromBytesBE, h]
  | succ w ih =>
    have hp : (256 : Nat) ^ (w + 1) = 256 ^ w * 256 := pow_succ 256 w
    have hd : x / 256 < 256 ^ w := by
      rw [hp] at h
      omega
    have := ih (x / 256) hd
    simp only [toBytesBE, fromBytesBE, List.foldl_append, List.foldl_cons,
      List.foldl_nil] at *
    rw [this]
    omega

theorem readBE_append (w x : Nat) (rest : List Nat) (h : x < 256 ^ w) :
    readBE w (toBytesBE w x ++ rest) = (x, rest) := by
  unfold readBE
  rw [List.take_left' (toBytesBE_length w x), List.drop_left' (toBytesBE_length w x),
    fromBytesBE_toBytesBE w x h]

theorem readChunk_append (w : Nat) (a rest : List Nat) (h : a.length = w) :
    readChunk w (a ++ rest) = (a, rest) := by
  unfold readChunk
  rw [List.take_left' h, List.drop_left' h]

theorem readChunk_exact (w : Nat) (a : List Nat) (h : a.length = w) :
    readChunk w a = (a, []) := by
  unfold readChunk
  subst h
  rw [List.take_length, List.drop_length]

/-- Round-trip of the version-2 codec for any in-range payload: the decode
modelled from the spec inverts the wire image `sendmsg` transmits. -/
theorem decode_encode_bytes (p : Pub.payload) (h : Pub.payload_inrange p) :
    decode (encode_bytes p) = p := by
  obtain ⟨h1, h2, h3, h4, h5, h6, h7, h8, h9, h10, h11, h12, h13⟩ := h
  simp only [decode, encode_bytes, List.append_assoc]
  rw [readBE_append 4 _ _ h1]
  rw [readBE_append 1 _ _ h2]
  rw [readBE_append 1 _ _ h3]
  rw [readBE_append 2 _ _ h4]
  rw [readBE_append 4 _ _ h5]
  rw [readChunk_append 4 _ _ h6]
  rw [readBE_append 8 _ _ h7]
  rw [readBE_append 8 _ _ h8]
  rw [readBE_append 8 _ _ h9]
  rw [readBE_append 8 _ _ h10]
  rw [readBE_append 8 _ _ h11]
  rw [readChunk_append 16 _ _ h12]
  rw [readChunk_exact 64 _ h13]

/-- C1: for every valid payload, the publisher's encoding (`fill_payload`
composed with the wire image each field was stored through `hton*` into)
followed by the subscriber's per-field byte-order-swapping decode yields the
same payload field for field — magic, version, TTL, port, multicast
address, padding, both departure timestamps, key, sequence number, sequence
length and the verbatim-copied string fields all survive the round trip. -/
theorem C1_encode_decode_roundtrip (cfg : Pub.pub_options) (ep : Pub.endpoint)
    (snum : Nat) (hname : List Nat) (rsec msec : Nat)
    (hmaddr : ep.ep_maddr < 256 ^ 4) (hiname : ep.ep_iname.length = 16)
    (hhname : hname.length = 64) (hkey : cfg.op_key < 256 ^ 8)
    (hcnt : cfg.op_cnt < 256 ^ 8) (hsnum : snum < 256 ^ 8)
    (hrsec : rsec < 256 ^ 8) (hmsec : msec < 256 ^ 8) :
    decode (encode_bytes (Pub.fill_payload cfg ep snum hname rsec msec)) =
      Pub.fill_payload cfg ep snum hname rsec msec := by
  apply decode_encode_bytes
  unfold Pub.payload_inrange Pub.fill_payload
  refine ⟨by norm_num [MBEAT_PAYLOAD_MAGIC], by norm_num [MBEAT_PAYLOAD_VERSION],
    ?_, ?_, hmaddr, rfl, hrsec, hmsec, hkey, hsnum, hcnt, hiname, hhname⟩
  · rw [pow_one]
    exact Nat.mod_lt _ (by norm_num)
  · rw [show (256 : Nat) ^ 2 = 2 ^ 16 by norm_num]
    exact Nat.mod_lt _ (by norm_num)

/-- Concrete instance of C1: one fully populated payload survives encoding
and decoding unchanged. -/
theorem C1_encode_decode_roundtrip_witness :
    decode (encode_bytes (Pub.fill_payload ⟨0, 3, 0, 32, 7, 42, 22999, 0⟩
        ⟨3758096385, List.replicate 16 101⟩ 9 (List.replicate 64 104) 111 222)) =
      Pub.fill_payload ⟨0, 3, 0, 32, 7, 42, 22999, 0⟩
        ⟨3758096385, List.replicate 16 101⟩ 9 (List.replicate 64 104) 111 222 :=
  C1_encode_decode_roundtrip _ _ _ _ _ _ (by norm_num) (by simp) (by simp)
    (by norm_num) (by norm_num) (by norm_num) (by norm_num) (by norm_num)

/-- C2: the validation of a received datagram performs exactly three
independent checks in order.  A buffer whose observed byte count differs
from the fixed payload size is rejected as a size mismatch whatever its
content (its magic and version are never examined); a correctly sized
buffer whose decoded magic differs from the protocol constant is rejected
as a magic mismatch; a correctly sized, correctly magicked buffer with an
unsupported version is rejected as a version mismatch; a payload passing
all three checks is accepted for filtering and output. -/
theorem C2_validation_checks :
    (∀ n buf, n ≠ Sub.payload_sizeof →
      Sub.validate_datagram n buf = Sub.CheckResult.sizeReject) ∧
    (∀ n buf, n = Sub.payload_sizeof →
      (Sub.convert_payload buf).pl_magic ≠ MBEAT_PAYLOAD_MAGIC →
      Sub.validate_datagram n buf = Sub.CheckResult.magicReject) ∧
    (∀ n buf, n = Sub.payload_sizeof →
      (Sub.convert_payload buf).pl_magic = MBEAT_PAYLOAD_MAGIC →
      (Sub.convert_payload buf).pl_fver ≠ MBEAT_PAYLOAD_VERSION →
      Sub.validate_datagram n buf = Sub.CheckResult.versionReject) ∧
    (∀ n buf, n = Sub.payload_sizeof →
      (Sub.convert_payload buf).pl_magic = MBEAT_PAYLOAD_MAGIC →
      (Sub.convert_payload buf).pl_fver = MBEAT_PAYLOAD_VERSION →
      Sub.validate_datagram n buf =
        Sub.CheckResult.accept (Sub.convert_payload buf)) := by
  refine ⟨?_, ?_, ?_, ?_⟩ <;> intros n buf <;> intros <;>
    simp [Sub.validate_datagram, *]

/-- Concrete instances of C2: a short buffer, a wrong-magic buffer, a
wrong-version buffer and a well-formed buffer each land in the expected
branch. -/
theorem C2_validation_checks_witness :
    Sub.validate_datagram 5
        ⟨0, 0, 0, 0, 0, 0, 0, 0, [], [], 0, 0⟩ = Sub.CheckResult.sizeReject ∧
    Sub.validate_datagram 128
        ⟨0, 2, 7, 9, 11, 5, 1, 3, [], [], 0, 0⟩ = Sub.CheckResult.magicReject ∧
    Sub.validate_datagram 128
        ⟨bswap 4 MBEAT_PAYLOAD_MAGIC, 9, 7, 9, 11, 5, 1, 3, [], [], 0, 0⟩ =
      Sub.CheckResult.versionReject ∧
    Sub.validate_datagram 128
        ⟨bswap 4 MBEAT_PAYLOAD_MAGIC, 2, 7, 9, 11, 5, 1, 3, [], [], 0, 0⟩ =
      Sub.CheckResult.accept (Sub.convert_payload
        ⟨bswap 4 MBEAT_PAYLOAD_MAGIC, 2, 7, 9, 11, 5, 1, 3, [], [], 0, 0⟩) :=
  ⟨C2_validation_checks.1 5 _ (by decide),
   C2_validation_checks.2.1 128 _ (by decide) (by decide),
   C2_validation_checks.2.2.1 128 _ (by decide) (by decide) (by decide),
   C2_validation_checks.2.2.2 128 _ (by decide) (by decide) (by decide)⟩

/-- C7: a datagram failing the size, magic or version check is skipped and
the drain loop continues with the next datagram under every error policy,
and a receive stream containing no receive-syscall failure always leaves
the loop with a success status — protocol-validation failure never
terminates the run. -/
theorem C7_validation_never_fatal :
    (∀ (opts : Sub.sub_options) n buf rest,
      Sub.validation_rejects n buf = true →
      Sub.handle_event opts (Sub.RecvInput.dgram n buf :: rest) =
        Sub.handle_event opts rest) ∧
    (∀ (opts : Sub.sub_options) inputs,
      (∀ i ∈ inputs, i ≠ Sub.RecvInput.rerror) →
      (Sub.handle_event opts inputs).1 = true) := by
  constructor
  · intro opts n buf rest hrej
    unfold Sub.validation_rejects at hrej
    cases h : Sub.validate_datagram n buf <;>
      simp [Sub.handle_event, h] <;> rw [h] at hrej <;> simp at hrej
  · intro opts inputs hin
    induction inputs with
    | nil => rfl
    | cons i rest ih =>
      have hrest : ∀ j ∈ rest, j ≠ Sub.RecvInput.rerror := by
        intro j hj
        exact hin j (List.mem_cons_of_mem i hj)
      cases i with
      | rerror => exact absurd rfl (hin Sub.RecvInput.rerror (List.mem_cons_self _ _))
      | dgram n buf =>
        cases h : Sub.validate_datagram n buf <;>
          simp [Sub.handle_event, h, ih hrest]

/-- Concrete instance of C7: with the exit-on-error policy enabled, a
wrong-sized datagram is skipped and the loop result on the remaining input
is unchanged and successful. -/
theorem C7_validation_never_fatal_witness :
    Sub.handle_event ⟨0, 0, 0, 0, 22999, 1, 0, 0⟩
        [Sub.RecvInput.dgram 5 ⟨0, 0, 0, 0, 0, 0, 0, 0, [], [], 0, 0⟩] =
      Sub.handle_event ⟨0, 0, 0, 0, 22999, 1, 0, 0⟩ [] ∧
    (Sub.handle_event ⟨0, 0, 0, 0, 22999, 1, 0, 0⟩
        [Sub.RecvInput.dgram 5 ⟨0, 0, 0, 0, 0, 0, 0, 0, [], [], 0, 0⟩]).1 = true :=
  ⟨C7_validation_never_fatal.1 _ 5 _ [] (by decide),
   C7_validation_never_fatal.2 _ _ (by decide)⟩

/-- C5 counterexample: with filter key 5 (non-zero) and sequence floor 1, a
validated payload whose session ID equals the filter key but whose sequence
number lies below the floor is not rendered — so, as stated, "rendered if
and only if the key matches" fails in the right-to-left direction. -/
theorem C5_counterexample :
    (⟨0, 0, 5, 1, 22999, 0, 0, 0⟩ : Sub.sub_options).so_sid ≠ 0 ∧
    (⟨1835362676, 2, 7, 9, 11, 5, 0, 3, [], [], 1234, 777⟩ :
      Sub.payload).pl_sid = (⟨0, 0, 5, 1, 22999, 0, 0, 0⟩ :
      Sub.sub_options).so_sid ∧
    Sub.print_payload ⟨0, 0, 5, 1, 22999, 0, 0, 0⟩
      ⟨1835362676, 2, 7, 9, 11, 5, 0, 3, [], [], 1234, 777⟩ = none := by
  decide

/-- C5 amended: for every decoded, validated payload, a non-zero filter key
`K` renders the payload if and only if its session ID equals `K` AND it
also passes the sequence-floor filter; a zero filter key never blocks a
payload — every payload then passes the key filter and is rendered exactly
when it passes the floor filter. -/
theorem C5_key_filter (opts : Sub.sub_options) (pl : Sub.payload) :
    (opts.so_sid ≠ 0 →
      ((Sub.print_payload opts pl).isSome ↔
        (pl.pl_sid = opts.so_sid ∧ opts.so_off ≤ pl.pl_snum))) ∧
    (opts.so_sid = 0 →
      ((Sub.print_payload opts pl).isSome ↔ opts.so_off ≤ pl.pl_snum)) := by
  unfold Sub.print_payload
  constructor <;> intro h <;> split_ifs with h1 h2 <;> simp_all <;> omega

/-- Concrete instance of C5 (amended): key filter 5, floor 0, payload with
session ID 5 — rendered exactly because the key matches and the floor
passes. -/
theorem C5_key_filter_witness :
    (Sub.print_payload ⟨0, 0, 5, 0, 22999, 0, 0, 0⟩
        ⟨1835362676, 2, 7, 9, 11, 5, 2, 3, [], [], 1234, 777⟩).isSome ↔
      ((⟨1835362676, 2, 7, 9, 11, 5, 2, 3, [], [], 1234, 777⟩ :
          Sub.payload).pl_sid = (⟨0, 0, 5, 0, 22999, 0, 0, 0⟩ :
          Sub.sub_options).so_sid ∧
        (⟨0, 0, 5, 0, 22999, 0, 0, 0⟩ : Sub.sub_options).so_off ≤
          (⟨1835362676, 2, 7, 9, 11, 5, 2, 3, [], [], 1234, 777⟩ :
          Sub.payload).pl_snum) :=
  (C5_key_filter ⟨0, 0, 5, 0, 22999, 0, 0, 0⟩
    ⟨1835362676, 2, 7, 9, 11, 5, 2, 3, [], [], 1234, 777⟩).1 (by decide)

/-- C6 counterexample: with sequence floor 0 and filter key 5, a validated
payload with sequence number 3 ≥ floor but session ID 7 is not rendered —
so, as stated, "S ≥ floor implies accepted and renumbered" fails once the
key filter intervenes. -/
theorem C6_counterexample :
    (⟨0, 0, 5, 0, 22999, 0, 0, 0⟩ : Sub.sub_options).so_off ≤
      (⟨1835362676, 2, 7, 9, 11, 7, 3, 3, [], [], 1234, 777⟩ :
        Sub.payload).pl_snum ∧
    Sub.print_payload ⟨0, 0, 5, 0, 22999, 0, 0, 0⟩
      ⟨1835362676, 2, 7, 9, 11, 7, 3, 3, [], [], 1234, 777⟩ = none := by
  decide

/-- C6 amended: for every decoded, validated payload with sequence number
`S` and configured floor `F`, if `S < F` the payload is dropped with no
output; if `S ≥ F` and the payload also passes the key filter, it is
rendered with sequence number `S - F`. -/
theorem C6_floor_filter (opts : Sub.sub_options) (pl : Sub.payload) :
    (pl.pl_snum < opts.so_off → Sub.print_payload opts pl = none) ∧
    (opts.so_off ≤ pl.pl_snum →
      ¬(opts.so_sid ≠ 0 ∧ opts.so_sid ≠ pl.pl_sid) →
      Sub.print_payload opts pl =
        some { pl with pl_snum := pl.pl_snum - opts.so_off }) := by
  unfold Sub.print_payload
  constructor
  · intro h
    split_ifs with h1
    · rfl
    · rfl
  · intro h hk
    split_ifs with h1
    · exfalso
      omega
    · rfl

/-- Concrete instances of C6 (amended): floor 2 drops sequence number 1 and
renumbers sequence number 5 to 3. -/
theorem C6_floor_filter_witness :
    Sub.print_payload ⟨0, 0, 0, 2, 22999, 0, 0, 0⟩
        ⟨1835362676, 2, 7, 9, 11, 5, 1, 3, [], [], 1234, 777⟩ = none ∧
    Sub.print_payload ⟨0, 0, 0, 2, 22999, 0, 0, 0⟩
        ⟨1835362676, 2, 7, 9, 11, 5, 5, 3, [], [], 1234, 777⟩ =
      some ⟨1835362676, 2, 7, 9, 11, 5, 3, 3, [], [], 1234, 777⟩ :=
  ⟨(C6_floor_filter ⟨0, 0, 0, 2, 22999, 0, 0, 0⟩
      ⟨1835362676, 2, 7, 9, 11, 5, 1, 3, [], [], 1234, 777⟩).1 (by decide),
   (C6_floor_filter ⟨0, 0, 0, 2, 22999, 0, 0, 0⟩
      ⟨1835362676, 2, 7, 9, 11, 5, 5, 3, [], [], 1234, 777⟩).2 (by decide)
      (by decide)⟩

/-- C4 counterexample: parsing the two endpoint arguments `0` then `1` with
a parser that accepts everything yields the traversal list `[1, 0]` — the
reverse of the argument order — so the first endpoint the publisher's
per-round loop visits is not the one parsed from the first argument. -/
theorem C4_counterexample :
    (parse_endpoints (fun n : Nat => some n) [0, 1]).1 = [1, 0] ∧
    [1, 0] ≠ [0, 1] := by
  decide

/-- C4 amended: `parse_endpoints` pushes each parsed endpoint onto the head
of the list, so when every argument parses, the collection traversed by the
publisher's per-round loop is the REVERSE of the argument order: the i-th
endpoint in traversal order is the one parsed from the (n-1-i)-th
argument. -/
theorem parse_endpoints_loop_all {α ε : Type} (parseOne : α → Option ε)
    (args : List α) :
    ∀ acc : List ε, (∀ a ∈ args, (parseOne a).isSome) →
      parse_endpoints_loop parseOne args acc =
        ((args.filterMap parseOne).reverse ++ acc, true) := by
  induction args with
  | nil =>
    intro acc _
    rfl
  | cons a rest ih =>
    intro acc hall
    obtain ⟨e, he⟩ := Option.isSome_iff_exists.mp
      (hall a (List.mem_cons_self _ _))
    have hrest : ∀ x ∈ rest, (parseOne x).isSome := by
      intro x hx
      exact hall x (List.mem_cons_of_mem a hx)
    simp only [parse_endpoints_loop, he]
    rw [ih (e :: acc) hrest]
    simp [he, List.filterMap_cons]

theorem C4_endpoint_order {α ε : Type} (parseOne : α → Option ε)
    (args : List α) (h : ∀ a ∈ args, (parseOne a).isSome) :
    parse_endpoints parseOne args = ((args.filterMap parseOne).reverse, true) := by
  unfold parse_endpoints
  rw [parse_endpoints_loop_all parseOne args [] h, List.append_nil]

/-- Concrete instance of C4 (amended): three arguments come out reversed. -/
theorem C4_endpoint_order_witness :
    parse_endpoints (fun n : Nat => some n) [3, 4, 5] = ([5, 4, 3], true) := by
  rw [C4_endpoint_order (fun n : Nat => some n) [3, 4, 5] (by decide)]
  rfl

/-- C3: evaluation of the publisher loop at a failing send.  With the
exit-on-error policy configured (`op_err = 1`), one round and one endpoint
whose `sendmsg` fails with -1 (the return value of a failed send syscall),
`publish_datagrams` still reports overall success and counts zero logged
failures, because pub.c line 424 tests `ret == 0` and a failed `sendmsg`
returns -1, never 0: the failure is neither logged nor fatal. -/
theorem C3_send_failure_undetected :
    (Pub.publish_datagrams ⟨0, 1, 0, 32, 0, 42, 22999, 1⟩
        [⟨3758096385, List.replicate 16 101⟩] (List.replicate 64 104)
        (fun _ _ => 0) (fun _ _ => 0) (fun _ _ => -1)).1 = true ∧
    (Pub.publish_datagrams ⟨0, 1, 0, 32, 0, 42, 22999, 1⟩
        [⟨3758096385, List.replicate 16 101⟩] (List.replicate 64 104)
        (fun _ _ => 0) (fun _ _ => 0) (fun _ _ => -1)).2.1 = 0 := by
  constructor <;> rfl

/-- C10: the publisher's random key generator never returns zero — whatever
the pseudo-random stream, a returned key is non-zero, and as soon as any
draw pair is not all-zero a key is in fact returned (the loop cannot skip a
non-zero combination). -/
theorem C10_generate_key_nonzero :
    (∀ draws k, Pub.generate_key draws = some k → k ≠ 0) ∧
    (∀ draws : List (Nat × Nat),
      (∃ p ∈ draws, p.1 ≠ 0 ∨ p.2 ≠ 0) → (Pub.generate_key draws).isSome) := by
  constructor
  · intro draws
    induction draws with
    | nil =>
      intro k hk
      simp [Pub.generate_key] at hk
    | cons p rest ih =>
      intro k hk
      obtain ⟨lo, hi⟩ := p
      simp only [Pub.generate_key] at hk
      split_ifs at hk with h0
      · exact ih k hk
      · cases hk
        exact h0
  · intro draws
    induction draws with
    | nil =>
      rintro ⟨p, hp, _⟩
      simp at hp
    | cons p rest ih =>
      rintro ⟨q, hq, hqne⟩
      obtain ⟨lo, hi⟩ := p
      simp only [Pub.generate_key]
      split_ifs with h0
      · have hparts : lo = 0 ∧ hi <<< 32 = 0 := by
          constructor <;> apply Nat.zero_of_testBit_eq_false <;> intro i <;>
            have hb := congrArg (fun x => Nat.testBit x i) h0 <;>
            simp only [Nat.testBit_lor, Nat.zero_testBit,
              Bool.or_eq_false_iff] at hb
          · exact hb.1
          · exact hb.2
        have hhi : hi = 0 := by
          have := hparts.2
          rw [Nat.shiftLeft_eq] at this
          simpa using this
        rcases List.mem_cons.mp hq with hq1 | hq2
        · exfalso
          rw [hq1] at hqne
          rcases hqne with h | h
          · exact h hparts.1
          · exact h hhi
        · exact ih ⟨q, hq2, hqne⟩
      · simp

/-- Concrete instance of C10: a stream whose first draw is all-zero and
whose second draw is `(5, 0)` yields the key 5, which is non-zero. -/
theorem C10_generate_key_nonzero_witness :
    Pub.generate_key [(0, 0), (5, 0)] = some 5 ∧ (5 : Nat) ≠ 0 :=
  ⟨by decide, C10_generate_key_nonzero.1 [(0, 0), (5, 0)] 5 (by decide)⟩

theorem publish_round_all (cfg : Pub.pub_options) (hname : List Nat)
    (cR cM : Nat → Nat → Nat) (send : Nat → Nat → Int) (r : Nat)
    (l : List (Nat × Pub.endpoint)) (h : ∀ i, send r i ≠ 0) :
    Pub.publish_round cfg hname cR cM send r l =
      (true, 0, l.map (fun p => Pub.fill_payload cfg p.2
        ((r + cfg.op_off) % 2 ^ 32) hname (cR r p.1) (cM r p.1))) := by
  induction l with
  | nil => rfl
  | cons p rest ih =>
    obtain ⟨i, ep⟩ := p
    simp only [Pub.publish_round, h i, if_false, ih]
    simp

theorem publish_loop_all (cfg : Pub.pub_options) (eps : List Pub.endpoint)
    (hname : List Nat) (cR cM : Nat → Nat → Nat) (send : Nat → Nat → Int)
    (rs : List Nat) (h : ∀ r i, send r i ≠ 0) :
    Pub.publish_loop cfg eps hname cR cM send rs =
      (true, 0, rs.flatMap (fun r => eps.enum.map (fun p =>
        Pub.fill_payload cfg p.2 ((r + cfg.op_off) % 2 ^ 32) hname
          (cR r p.1) (cM r p.1)))) := by
  induction rs with
  | nil => rfl
  | cons r rs ih =>
    simp only [Pub.publish_loop,
      publish_round_all cfg hname cR cM send r eps.enum (h r), ih]
    simp

/-- C8 amended: with round count `N = op_cnt`, offset `OFF = op_off` and no
aborted send, every datagram of round `r` carries the sequence number
`(r + OFF) % 2 ^ 32` — pub.c passes `c + op_off` into `fill_payload`'s
`uint32_t` parameter, truncating it — and sequence length `N`; whenever
`OFF + N ≤ 2 ^ 32` no truncation occurs and the transmitted sequence
numbers are exactly `OFF, OFF + 1, ..., OFF + N - 1` in round order,
monotonically increasing, as the claim states. -/
theorem C8_sequence_numbers (cfg : Pub.pub_options) (eps : List Pub.endpoint)
    (hname : List Nat) (cR cM : Nat → Nat → Nat) (send : Nat → Nat → Int)
    (h : ∀ r i, send r i ≠ 0) :
    ((Pub.publish_datagrams cfg eps hname cR cM send).2.2.map
        Pub.payload.pl_snum =
      (List.range cfg.op_cnt).flatMap
        (fun r => List.replicate eps.length ((r + cfg.op_off) % 2 ^ 32))) ∧
    (∀ pl ∈ (Pub.publish_datagrams cfg eps hname cR cM send).2.2,
      pl.pl_slen = cfg.op_cnt) ∧
    (cfg.op_off + cfg.op_cnt ≤ 2 ^ 32 →
      (Pub.publish_datagrams cfg eps hname cR cM send).2.2.map
          Pub.payload.pl_snum =
        (List.range cfg.op_cnt).flatMap
          (fun r => List.replicate eps.length (cfg.op_off + r))) := by
  have hsent : (Pub.publish_datagrams cfg eps hname cR cM send).2.2 =
      (List.range cfg.op_cnt).flatMap (fun r => eps.enum.map (fun p =>
        Pub.fill_payload cfg p.2 ((r + cfg.op_off) % 2 ^ 32) hname
          (cR r p.1) (cM r p.1))) := by
    unfold Pub.publish_datagrams
    rw [publish_loop_all cfg eps hname cR cM send _ h]
  have hconst : ∀ r : Nat, (eps.enum.map (fun p =>
      Pub.fill_payload cfg p.2 ((r + cfg.op_off) % 2 ^ 32) hname
        (cR r p.1) (cM r p.1))).map Pub.payload.pl_snum =
      List.replicate eps.length ((r + cfg.op_off) % 2 ^ 32) := by
    intro r
    rw [List.map_map]
    rw [show ((fun pl => pl.pl_snum) ∘ fun p : Nat × Pub.endpoint =>
      Pub.fill_payload cfg p.2 ((r + cfg.op_off) % 2 ^ 32) hname
        (cR r p.1) (cM r p.1)) = fun _ => (r + cfg.op_off) % 2 ^ 32 from rfl]
    rw [List.map_const', List.enum_length]
  have hpart1 : (Pub.publish_datagrams cfg eps hname cR cM send).2.2.map
      Pub.payload.pl_snum =
      (List.range cfg.op_cnt).flatMap
        (fun r => List.replicate eps.length ((r + cfg.op_off) % 2 ^ 32)) := by
    rw [hsent, List.map_flatMap]
    simp only [hconst]
  refine ⟨hpart1, ?_, ?_⟩
  · intro pl hpl
    rw [hsent] at hpl
    simp only [List.mem_flatMap, List.mem_map] at hpl
    obtain ⟨r, _, p, _, hfill⟩ := hpl
    rw [← hfill]
    rfl
  · intro hno
    rw [hpart1, List.flatMap_def, List.flatMap_def]
    refine congrArg List.flatten (List.map_congr_left ?_)
    intro r hr
    rw [List.mem_range] at hr
    have hlt : r + cfg.op_off < 2 ^ 32 := by omega
    rw [Nat.mod_eq_of_lt hlt, Nat.add_comm]

/-- Concrete instance of C8 (amended): two rounds, one endpoint, offset 3 —
the transmitted sequence numbers are `[3, 4]` and both payloads carry
sequence length 2. -/
theorem C8_sequence_numbers_witness :
    (Pub.publish_datagrams ⟨0, 2, 0, 32, 3, 42, 22999, 0⟩
        [⟨3758096385, List.replicate 16 101⟩] (List.replicate 64 104)
        (fun _ _ => 0) (fun _ _ => 0) (fun _ _ => 1)).2.2.map
      Pub.payload.pl_snum = [3, 4] := by
  rw [(C8_sequence_numbers ⟨0, 2, 0, 32, 3, 42, 22999, 0⟩
    [⟨3758096385, List.replicate 16 101⟩] (List.replicate 64 104)
    (fun _ _ => 0) (fun _ _ => 0) (fun _ _ => 1)
    (fun _ _ => one_ne_zero)).1]
  decide

/-- C8 counterexample: with offset `2 ^ 32` and one round, the single
transmitted datagram carries sequence number 0, not `2 ^ 32 + 0` as the
claim requires — the `uint32_t` parameter of `fill_payload` truncates the
64-bit sum `c + op_off`. -/
theorem C8_counterexample :
    (Pub.publish_datagrams ⟨0, 1, 0, 32, 2 ^ 32, 42, 22999, 0⟩
        [⟨3758096385, List.replicate 16 101⟩] (List.replicate 64 104)
        (fun _ _ => 0) (fun _ _ => 0) (fun _ _ => 1)).2.2.map
      Pub.payload.pl_snum = [0] ∧ (0 : Nat) ≠ 2 ^ 32 + 0 := by
  constructor
  · rfl
  · decide

theorem toBytesLE_length (w x : Nat) : (toBytesLE w x).length = w := by
  simp [toBytesLE, toBytesBE_length]

theorem payload_bytes_length (pl : Sub.payload)
    (h1 : pl.pl_iname.length = 16) (h2 : pl.pl_hname.length = 64) :
    (Sub.payload_bytes pl).length = 128 := by
  simp [Sub.payload_bytes, toBytesLE_length, h1, h2]

/-- C9 amended: for every accepted datagram in raw output mode, the record
written to the output stream is the payload as rendered (host byte order,
sequence number already reduced by the floor — not the received bytes
verbatim), then the subscriber's interface name at offset 128 (16 bytes),
the subscriber's hostname at offset 144 (64 bytes), the single wall-clock
arrival time as 8 bytes of seconds at offset 208 and 4 bytes of nanoseconds
at offset 216 (there is no monotonic arrival timestamp), the TTL-available
flag at offset 220, the observed destination TTL narrowed to one byte, and
2 bytes of zeroed padding; 224 bytes in total, 4 fewer than the claimed
layout with two 8-byte arrival stamps. -/
theorem C9_raw_record (pl : Sub.payload) (ep_iname hname : List Nat)
    (tv_sec tv_nsec : Nat) (ttl : Int)
    (h1 : pl.pl_iname.length = 16) (h2 : pl.pl_hname.length = 64)
    (h3 : ep_iname.length = 16) (h4 : hname.length = 64) :
    (Sub.print_payload_raw pl ep_iname hname tv_sec tv_nsec ttl).length = 224 ∧
    (Sub.print_payload_raw pl ep_iname hname tv_sec tv_nsec ttl).take 128 =
      Sub.payload_bytes pl ∧
    ((Sub.print_payload_raw pl ep_iname hname tv_sec tv_nsec ttl).drop
      128).take 16 = ep_iname ∧
    ((Sub.print_payload_raw pl ep_iname hname tv_sec tv_nsec ttl).drop
      144).take 64 = hname ∧
    ((Sub.print_payload_raw pl ep_iname hname tv_sec tv_nsec ttl).drop
      208).take 8 = toBytesLE 8 tv_sec ∧
    ((Sub.print_payload_raw pl ep_iname hname tv_sec tv_nsec ttl).drop
      216).take 4 = toBytesLE 4 tv_nsec ∧
    (Sub.print_payload_raw pl ep_iname hname tv_sec tv_nsec ttl).drop 220 =
      [if 0 ≤ ttl ∧ ttl ≤ 255 then 1 else 0, (ttl % 256).toNat, 0, 0] := by
  have hpb : (Sub.payload_bytes pl).length = 128 := payload_bytes_length pl h1 h2
  have hr : Sub.print_payload_raw pl ep_iname hname tv_sec tv_nsec ttl =
      Sub.payload_bytes pl ++ (ep_iname ++ (hname ++ (toBytesLE 8 tv_sec ++
        (toBytesLE 4 tv_nsec ++ ([if 0 ≤ ttl ∧ ttl ≤ 255 then 1 else 0] ++
          ([(ttl % 256).toNat] ++ [0, 0])))))) := by
    simp [Sub.print_payload_raw, List.append_assoc]
  have d128 : (Sub.print_payload_raw pl ep_iname hname tv_sec tv_nsec
      ttl).drop 128 = ep_iname ++ (hname ++ (toBytesLE 8 tv_sec ++
        (toBytesLE 4 tv_nsec ++ ([if 0 ≤ ttl ∧ ttl ≤ 255 then 1 else 0] ++
          ([(ttl % 256).toNat] ++ [0, 0]))))) := by
    rw [hr, List.drop_left' hpb]
  have d144 : (Sub.print_payload_raw pl ep_iname hname tv_sec tv_nsec
      ttl).drop 144 = hname ++ (toBytesLE 8 tv_sec ++
        (toBytesLE 4 tv_nsec ++ ([if 0 ≤ ttl ∧ ttl ≤ 255 then 1 else 0] ++
          ([(ttl % 256).toNat] ++ [0, 0])))) := by
    have : (Sub.print_payload_raw pl ep_iname hname tv_sec tv_nsec
        ttl).drop 144 = ((Sub.print_payload_raw pl ep_iname hname tv_sec
        tv_nsec ttl).drop 128).drop 16 := by
      rw [List.drop_drop]
    rw [this, d128, List.drop_left' h3]
  have d208 : (Sub.print_payload_raw pl ep_iname hname tv_sec tv_nsec
      ttl).drop 208 = toBytesLE 8 tv_sec ++
        (toBytesLE 4 tv_nsec ++ ([if 0 ≤ ttl ∧ ttl ≤ 255 then 1 else 0] ++
          ([(ttl % 256).toNat] ++ [0, 0]))) := by
    have : (Sub.print_payload_raw pl ep_iname hname tv_sec tv_nsec
        ttl).drop 208 = ((Sub.print_payload_raw pl ep_iname hname tv_sec
        tv_nsec ttl).drop 144).drop 64 := by
      rw [List.drop_drop]
    rw [this, d144, List.drop_left' h4]
  have d216 : (Sub.print_payload_raw pl ep_iname hname tv_sec tv_nsec
      ttl).drop 216 = toBytesLE 4 tv_nsec ++
        ([if 0 ≤ ttl ∧ ttl ≤ 255 then 1 else 0] ++
          ([(ttl % 256).toNat] ++ [0, 0])) := by
    have : (Sub.print_payload_raw pl ep_iname hname tv_sec tv_nsec
        ttl).drop 216 = ((Sub.print_payload_raw pl ep_iname hname tv_sec
        tv_nsec ttl).drop 208).drop 8 := by
      rw [List.drop_drop]
    rw [this, d208, List.drop_left' (toBytesLE_length 8 tv_sec)]
  have d220 : (Sub.print_payload_raw pl ep_iname hname tv_sec tv_nsec
      ttl).drop 220 = [if 0 ≤ ttl ∧ ttl ≤ 255 then 1 else 0] ++
        ([(ttl % 256).toNat] ++ [0, 0]) := by
    have : (Sub.print_payload_raw pl ep_iname hname tv_sec tv_nsec
        ttl).drop 220 = ((Sub.print_payload_raw pl ep_iname hname tv_sec
        tv_nsec ttl).drop 216).drop 4 := by
      rw [List.drop_drop]
    rw [this, d216, List.drop_left' (toBytesLE_length 4 tv_nsec)]
  refine ⟨?_, ?_, ?_, ?_, ?_, ?_, ?_⟩
  · rw [hr]
    simp [List.length_append, hpb, h3, h4, toBytesLE_length]
  · rw [hr, List.take_left' hpb]
  · rw [d128, List.take_left' h3]
  · rw [d144, List.take_left' h4]
  · rw [d208, List.take_left' (toBytesLE_length 8 tv_sec)]
  · rw [d216, List.take_left' (toBytesLE_length 4 tv_nsec)]
  · rw [d220]
    rfl

/-- Concrete instance of C9 (amended): a record written with destination
TTL 7 is 224 bytes and ends with flag 1, TTL byte 7 and two padding
zeroes. -/
theorem C9_raw_record_witness :
    (Sub.print_payload_raw
        ⟨1835362676, 2, 7, 9, 11, 5, 0, 3, List.replicate 16 101,
          List.replicate 64 104, 1234, 777⟩
        (List.replicate 16 115) (List.replicate 64 116) 5 6 7).length = 224 ∧
    (Sub.print_payload_raw
        ⟨1835362676, 2, 7, 9, 11, 5, 0, 3, List.replicate 16 101,
          List.replicate 64 104, 1234, 777⟩
        (List.replicate 16 115) (List.replicate 64 116) 5 6 7).drop 220 =
      [1, 7, 0, 0] := by
  have h := C9_raw_record
    ⟨1835362676, 2, 7, 9, 11, 5, 0, 3, List.replicate 16 101,
      List.replicate 64 104, 1234, 777⟩
    (List.replicate 16 115) (List.replicate 64 116) 5 6 7
    (by simp) (by simp) (by simp) (by simp)
  refine ⟨h.1, ?_⟩
  rw [h.2.2.2.2.2.2]
  decide

set_option maxRecDepth 16384 in
/-- C9 counterexample: a validated payload with sequence number 1, a floor
of 1 and raw output mode — the rendered record's payload part carries
sequence number 0, not the received payload verbatim, and the whole record
is 224 bytes where the claimed layout (with both an 8-byte wall-clock and
an 8-byte monotonic arrival stamp) demands 228. -/
theorem C9_counterexample :
    Sub.print_payload ⟨0, 0, 0, 1, 22999, 0, 1, 0⟩
        ⟨1835362676, 2, 7, 9, 11, 5, 1, 3, List.replicate 16 101,
          List.replicate 64 104, 1234, 777⟩ =
      some ⟨1835362676, 2, 7, 9, 11, 5, 0, 3, List.replicate 16 101,
        List.replicate 64 104, 1234, 777⟩ ∧
    (⟨1835362676, 2, 7, 9, 11, 5, 1, 3, List.replicate 16 101,
        List.replicate 64 104, 1234, 777⟩ : Sub.payload).pl_snum = 1 ∧
    (⟨1835362676, 2, 7, 9, 11, 5, 0, 3, List.replicate 16 101,
        List.replicate 64 104, 1234, 777⟩ : Sub.payload).pl_snum = 0 ∧
    (Sub.print_payload_raw
        ⟨1835362676, 2, 7, 9, 11, 5, 0, 3, List.replicate 16 101,
          List.replicate 64 104, 1234, 777⟩
        (List.replicate 16 115) (List.replicate 64 116) 5 6 (-1)).length =
      224 ∧
    Sub.claimed_raw_record_size = 228 ∧
    (224 : Nat) ≠ Sub.claimed_raw_record_size := by
  decide
